import Mathlib

/-!
Verification of the quicker QUIC endpoint (draft-12 vintage) against its
natural-language specification.  Each section shallowly embeds one source
file's relevant definitions; theorems at the end settle the spec's claims.

Bignum values (arbitrary-precision integers in the source) are embedded as
`Int` where subtraction may go negative and as `Nat` where the source only
ever holds non-negative values; `Bignum.infinity()` (used for the slow-start
threshold) is embedded as `Option Nat` with `none` standing for infinity.
-/

/-! ## Congestion controller — src/congestion-control/congestion.control.ts -/

namespace CongestionControl

/-- A sent/acked/lost packet as the congestion controller observes it:
its packet number (`getHeader().getPacketNumber().getValue()`), its
serialized size in bytes (`toBuffer(connection).byteLength`) and its
`isAckOnly()` flag. -/
structure QPacket where
  pn : Nat
  size : Nat
  ackOnly : Bool
deriving DecidableEq, Repr

/-- `DEFAULT_MSS` constant (line 26). -/
def DEFAULT_MSS : Nat := 1460

/-- `INITIAL_WINDOW` constant (line 28). -/
def INITIAL_WINDOW : Nat := DEFAULT_MSS * 10

/-- `MINIMUM_WINDOW` constant (line 30). -/
def MINIMUM_WINDOW : Nat := DEFAULT_MSS * 2

/-- The mutable fields of `CongestionControl`, plus a log of the packets the
send loop has dispatched (each `PACKET_SENT` emission at line 157 appends to
`sentLog`). -/
structure CCState where
  bytesInFlight : Int
  congestionWindow : Nat
  endOfRecovery : Nat
  sshtresh : Option Nat
  packetsQueue : List QPacket
  sentLog : List QPacket
deriving DecidableEq, Repr

/-- Constructor state (lines 55-64): window `10 × MSS`, nothing in flight,
`endOfRecovery = 0`, `sshtresh = ∞`, empty queue. -/
def initialCC : CCState :=
  { bytesInFlight := 0
    congestionWindow := INITIAL_WINDOW
    endOfRecovery := 0
    sshtresh := none
    packetsQueue := []
    sentLog := [] }

/-- `congestionWindow.lessThan(sshtresh)` where `sshtresh` may be
`Bignum.infinity()`. -/
def ltSshtresh (c : Nat) (t : Option Nat) : Bool :=
  match t with
  | none => true
  | some t => c < t

/-- `inRecovery` (lines 82-84): `packetNumber.lessThanOrEqual(endOfRecovery)`. -/
def inRecovery (s : CCState) (packetNumber : Nat) : Bool :=
  packetNumber ≤ s.endOfRecovery

/-- The `while` loop of `sendPackets` (lines 152-159): while
`bytesInFlight < congestionWindow` and the queue is non-empty, shift a packet
off the queue and dispatch it.  Neither `bytesInFlight` nor
`congestionWindow` is written inside the loop body. -/
def sendPacketsGo (bytesInFlight : Int) (congestionWindow : Nat) :
    List QPacket → List QPacket → List QPacket × List QPacket
  | [], sent => ([], sent)
  | p :: rest, sent =>
    if bytesInFlight < (congestionWindow : Int) then
      sendPacketsGo bytesInFlight congestionWindow rest (sent ++ [p])
    else (p :: rest, sent)

/-- `sendPackets` (lines 149-160). -/
def sendPackets (s : CCState) : CCState :=
  let r := sendPacketsGo s.bytesInFlight s.congestionWindow s.packetsQueue s.sentLog
  { s with packetsQueue := r.1, sentLog := r.2 }

/-- `queuePackets` (lines 144-147): append to the queue, then try to send. -/
def queuePackets (s : CCState) (packets : List QPacket) : CCState :=
  sendPackets { s with packetsQueue := s.packetsQueue ++ packets }

/-- `onPacketSent` (lines 86-92). -/
def onPacketSent (s : CCState) (packetSent : QPacket) : CCState :=
  if !packetSent.ackOnly then
    { s with bytesInFlight := s.bytesInFlight + packetSent.size }
  else s

/-- `onPacketAcked` (lines 95-114). -/
def onPacketAcked (s : CCState) (ackedPacket : QPacket) : CCState :=
  if ackedPacket.ackOnly then s
  else
    let s1 := { s with bytesInFlight := s.bytesInFlight - ackedPacket.size }
    if inRecovery s1 ackedPacket.pn then s1
    else
      let s2 :=
        if ltSshtresh s1.congestionWindow s1.sshtresh then
          { s1 with congestionWindow := s1.congestionWindow + ackedPacket.size }
        else
          { s1 with congestionWindow :=
              s1.congestionWindow + DEFAULT_MSS * ackedPacket.size / s1.congestionWindow }
      sendPackets s2

/-- `onPacketsLost` (lines 116-137).  The `forEach` subtracts every
non-ack-only lost packet's size from `bytesInFlight` and tracks the largest
lost packet number (starting from 0); a new recovery epoch halves the window
(`multiply(0.5)` on the arbitrary-precision window is the spec's
`cwnd × 0.5`, embedded as floor halving) and floors it at `MINIMUM_WINDOW`. -/
def onPacketsLost (s : CCState) (lostPackets : List QPacket) : CCState :=
  let acc := lostPackets.foldl
    (fun (acc : Int × Nat) p =>
      if p.ackOnly then acc
      else (acc.1 - p.size, if acc.2 < p.pn then p.pn else acc.2))
    (s.bytesInFlight, 0)
  let s1 := { s with bytesInFlight := acc.1 }
  let s2 :=
    if !inRecovery s1 acc.2 then
      { s1 with
        endOfRecovery := acc.2
        congestionWindow := Nat.max (s1.congestionWindow / 2) MINIMUM_WINDOW
        sshtresh := some (Nat.max (s1.congestionWindow / 2) MINIMUM_WINDOW) }
    else s1
  sendPackets s2

/-- `onRetransmissionTimeoutVerified` (lines 139-141). -/
def onRetransmissionTimeoutVerified (s : CCState) : CCState :=
  { s with congestionWindow := MINIMUM_WINDOW }

/-- The events the controller reacts to (lines 66-79). -/
inductive CCEvent where
  | packetSent (p : QPacket)
  | packetAcked (p : QPacket)
  | packetsLost (ps : List QPacket)
  | retransmissionTimeoutVerified

/-- One event dispatch. -/
def applyEvent (s : CCState) : CCEvent → CCState
  | .packetSent p => onPacketSent s p
  | .packetAcked p => onPacketAcked s p
  | .packetsLost ps => onPacketsLost s ps
  | .retransmissionTimeoutVerified => onRetransmissionTimeoutVerified s

/-- Run an event sequence from the constructor state. -/
def run (events : List CCEvent) : CCState :=
  events.foldl applyEvent initialCC

end CongestionControl

/-! ## Packet numbers — src/unnamed/part_000 (`header.properties.ts`) -/

namespace PacketNumber

/-- The `pnMask` loop of `adjustNumber` (lines 174-180): start from 1, and
63 times shift left by one and add 1 while `63 - i > size * 8`.  The result
is the 64-bit complement of the low `8 * size` bits. -/
def pnMask (size : Nat) : Nat :=
  (List.range 63).foldl
    (fun m i => if 63 - i > size * 8 then m * 2 + 1 else m * 2) 1

/-- `getBitSize` (lines 196-203). -/
def getBitSize (size : Nat) : Nat :=
  if size = 1 then 7
  else if size = 2 then 14
  else 30

/-- `adjustNumber` (lines 173-194).  `largest` is the value held by `this`
(the largest previously seen packet number), `truncated` the value held by
the received `PacketNumber`, `size` the wire width in bytes.
`Bignum.mask(size)` keeps the low `size` bytes; comparisons and subtraction
are on arbitrary-precision integers, embedded as `Int`. -/
def adjustNumber (largest truncated : Nat) (size : Nat) : Int :=
  let mask := pnMask size
  let expectedPn : Int := (largest : Int) + 1
  let pnWin : Int := 2 ^ getBitSize size
  let pnHWin : Int := pnWin / 2
  let maskedResult : Nat := (largest + 1) &&& mask
  let candidatePn : Int := ((truncated % 2 ^ (size * 8) : Nat) : Int) + maskedResult
  if candidatePn ≤ expectedPn - pnHWin then candidatePn + pnWin
  else if candidatePn > expectedPn + pnHWin ∧ candidatePn > pnWin then candidatePn - pnWin
  else candidatePn

/-- The algorithm in `adjustNumber`'s own doc comment (lines 145-169),
`DecodePacketNumber(largest_pn, truncated_pn, pn_nbits)` with
`pn_nbits = 8 × size`. -/
def decodePacketNumberDocumented (largest truncated : Nat) (size : Nat) : Int :=
  let pnNbits := size * 8
  let expectedPn : Int := (largest : Int) + 1
  let pnWin : Int := 2 ^ pnNbits
  let pnHWin : Int := pnWin / 2
  let pnMaskDoc : Nat := 2 ^ pnNbits - 1
  let candidatePn : Int :=
    (((largest + 1) &&& (2 ^ 64 - 1 - pnMaskDoc) : Nat) : Int) + (truncated &&& pnMaskDoc : Nat)
  if candidatePn ≤ expectedPn - pnHWin then candidatePn + pnWin
  else if candidatePn > expectedPn + pnHWin ∧ candidatePn > pnWin then candidatePn - pnWin
  else candidatePn

end PacketNumber

/-! ## Packet handler — src/src/utilities/handlers/packet.handler.ts -/

namespace PacketHandler

/-- Wire-visible error codes raised by the handler (`QuicError`). -/
inductive QuicErrorCode where
  | VERSION_NEGOTIATION_ERROR
deriving DecidableEq, Repr

/-- Local error codes raised by the handler (`QuickerError`); these drop the
packet but keep the connection alive. -/
inductive QuickerErrorCode where
  | IGNORE_PACKET_ERROR
deriving DecidableEq, Repr

/-- The connection fields `handleVersionNegotiationPacket` reads.  Versions
are the hex strings `Version.toString()` compares; connection IDs are the
`Bignum` values `ConnectionID.getValue()` compares, embedded as `Nat`. -/
structure VNConnState where
  version : String
  initialVersion : String
  initialDestConnectionID : Nat
  srcConnectionID : Nat
deriving DecidableEq, Repr

/-- The fields of a received `VersionNegotiationPacket` the handler reads:
the header's source and destination connection IDs and the advertised
version list. -/
structure VNPacket where
  srcConnectionID : Nat
  destConnectionID : Nat
  versions : List String
deriving DecidableEq, Repr

/-- The `containsChosenVersion` accumulation (lines 88-91). -/
def containsChosenVersion (chosen : String) (versions : List String) : Bool :=
  versions.foldl (fun acc v => acc || (v == chosen)) false

/-- The `negotiatedVersion` accumulation (lines 97-107): scan the peer's
list, keep versions found in the supported list, and among those keep the
one with the larger string (strictly-greater replaces). -/
def pickNegotiatedVersion (supported : List String) (versions : List String) :
    Option String :=
  versions.foldl
    (fun negotiated v =>
      if supported.contains v then
        match negotiated with
        | none => some v
        | some w => if w < v then some v else some w
      else negotiated)
    none

/-- `handleVersionNegotiationPacket` (lines 72-113).  `.ok none` means the
handler returned without touching the connection; `.ok (some v)` means it
called `connection.resetConnection(v)`; `.error` models the thrown
`QuicError`. -/
def handleVersionNegotiationPacket (supported : List String)
    (conn : VNConnState) (pkt : VNPacket) :
    Except QuicErrorCode (Option String) :=
  if conn.version ≠ conn.initialVersion then .ok none
  else if conn.initialDestConnectionID ≠ pkt.srcConnectionID ∨
      conn.srcConnectionID ≠ pkt.destConnectionID then
    .error .VERSION_NEGOTIATION_ERROR
  else if containsChosenVersion conn.initialVersion pkt.versions then .ok none
  else
    match pickNegotiatedVersion supported pkt.versions with
    | none => .error .VERSION_NEGOTIATION_ERROR
    | some v => .ok (some v)

/-- The connection fields the client-side Retry/Handshake handlers touch:
the learned destination connection ID (`undefined` before it is learned)
and the `retrySent` flag. -/
structure CIDConnState where
  destConnectionID : Option Nat
  retrySent : Bool
deriving DecidableEq, Repr

/-- Client state before any Retry or Handshake packet is accepted. -/
def initialCIDState : CIDConnState :=
  { destConnectionID := none, retrySent := false }

/-- Client-side part of `handleRetryPacket` (lines 121-137): on the very
first Retry the header's source connection ID becomes the destination ID and
`retrySent` is set; a later Retry with a different source ID throws the
local `IGNORE_PACKET_ERROR` before any state is written. -/
def handleRetryPacket (srcCID : Nat) (s : CIDConnState) :
    Except QuickerErrorCode CIDConnState :=
  match s.destConnectionID with
  | none => .ok { destConnectionID := some srcCID, retrySent := true }
  | some d =>
    if d ≠ srcCID then .error .IGNORE_PACKET_ERROR
    else .ok s

/-- Client-side part of `handleHandshakePacket` (lines 140-155): the source
connection ID is copied on the first Handshake, or once more on the first
Handshake after a Retry (`retrySent`); a later Handshake with a different
source ID throws the local `IGNORE_PACKET_ERROR` before any state is
written. -/
def handleHandshakePacket (srcCID : Nat) (s : CIDConnState) :
    Except QuickerErrorCode CIDConnState :=
  match s.destConnectionID, s.retrySent with
  | none, _ => .ok { destConnectionID := some srcCID, retrySent := false }
  | some _, true => .ok { destConnectionID := some srcCID, retrySent := false }
  | some d, false =>
    if d ≠ srcCID then .error .IGNORE_PACKET_ERROR
    else .ok s

/-- A client-side long-header packet event carrying the header's source
connection ID. -/
inductive CIDEvent where
  | retry (srcCID : Nat)
  | handshake (srcCID : Nat)

/-- One packet arrival: a thrown `IGNORE_PACKET_ERROR` drops the packet and
leaves the connection state unchanged. -/
def cidStep (s : CIDConnState) : CIDEvent → CIDConnState
  | .retry srcCID =>
    match handleRetryPacket srcCID s with
    | .ok s2 => s2
    | .error _ => s
  | .handshake srcCID =>
    match handleHandshakePacket srcCID s with
    | .ok s2 => s2
    | .error _ => s

/-- One packet arrival, also counting (retry, handshake) replacements of
the destination connection ID. -/
def cidFold (acc : CIDConnState × Nat × Nat) (e : CIDEvent) :
    CIDConnState × Nat × Nat :=
  let s2 := cidStep acc.1 e
  if s2.destConnectionID = acc.1.destConnectionID then (s2, acc.2.1, acc.2.2)
  else
    match e with
    | .retry _ => (s2, acc.2.1 + 1, acc.2.2)
    | .handshake _ => (s2, acc.2.1, acc.2.2 + 1)

/-- Run a packet sequence, counting how often each handler replaced the
destination connection ID. -/
def cidRun (events : List CIDEvent) : CIDConnState × Nat × Nat :=
  events.foldl cidFold (initialCIDState, 0, 0)

/-- The inductive invariant of the client's connection-ID discipline: each
handler has replaced the ID at most once, nothing is counted before the ID
is first learned, and while `retrySent` is pending exactly the retry
replacement has happened. -/
def cidInv (acc : CIDConnState × Nat × Nat) : Prop :=
  acc.2.1 ≤ 1 ∧ acc.2.2 ≤ 1 ∧
  (acc.1.destConnectionID = none → acc.1.retrySent = false ∧ acc.2.1 = 0 ∧ acc.2.2 = 0) ∧
  (acc.1.retrySent = true → acc.2.1 = 1 ∧ acc.2.2 = 0)

end PacketHandler


/-! ## Stream manager — src/src/quicker/stream.manager.ts -/

namespace StreamManager

/-- The fields of a `Stream` the manager touches: its 62-bit ID (a `Bignum`,
embedded as `Nat`) and the two max-data limits `initializeStream` copies
into it (`setLocalMaxData` / `setRemoteMaxData`), absent until set. -/
structure StreamR where
  streamId : Nat
  localMaxData : Option Nat
  remoteMaxData : Option Nat
deriving DecidableEq, Repr

/-- The manager's state: the stream list, the optional configured limits
(the `!`-declared fields start out `undefined`), and the log of
`INITIALIZED_STREAM` emissions (the IDs of the streams announced). -/
structure SMState where
  streams : List StreamR
  localMaxStreamData : Option Nat
  remoteMaxStreamData : Option Nat
  initializedLog : List Nat
deriving DecidableEq, Repr

/-- `_getStream` (lines 63-73): a `forEach` that keeps the last stream whose
ID equals the argument. -/
def underscoreGetStream (streamId : Nat) (s : SMState) : Option StreamR :=
  s.streams.foldl
    (fun res stream => if stream.streamId = streamId then some stream else res)
    none

/-- `hasStream` (lines 33-38). -/
def hasStream (streamId : Nat) (s : SMState) : Bool :=
  (underscoreGetStream streamId s).isSome

/-- `addStream` (lines 75-79): push only when no stream with that ID is
present. -/
def addStream (stream : StreamR) (s : SMState) : SMState :=
  if underscoreGetStream stream.streamId s = none then
    { s with streams := s.streams ++ [stream] }
  else s

/-- `initializeStream` (lines 50-61): construct `new Stream(type, id)`, add
it, copy the configured limits into it when they are set, emit
`INITIALIZED_STREAM`, and return it.  The `setLocalMaxData` /
`setRemoteMaxData` calls mutate the object just pushed, so the stored stream
carries the limits. -/
def initializeStream (streamId : Nat) (s : SMState) : StreamR × SMState :=
  let stream : StreamR :=
    { streamId := streamId
      localMaxData := s.localMaxStreamData
      remoteMaxData := s.remoteMaxStreamData }
  let s1 := addStream stream s
  (stream, { s1 with initializedLog := s1.initializedLog ++ [streamId] })

/-- `getStream` (lines 40-48). -/
def getStream (streamId : Nat) (s : SMState) : StreamR × SMState :=
  match underscoreGetStream streamId s with
  | some stream => (stream, s)
  | none => initializeStream streamId s

/-- First loop of `getNextStream` (lines 101-105): step by 4 from the stream
type until no stream with that ID exists.  The loop terminates because the
stream list is finite; `fuel` bounds the iterations and
`s.streams.length + 1` always suffices, because the visited IDs are distinct
and each but the last is present in the list. -/
def getNextStreamSearch (s : SMState) : Nat → Nat → Nat
  | 0, next => next
  | fuel + 1, next =>
    if underscoreGetStream next s = none then next
    else getNextStreamSearch s fuel (next + 4)

/-- Second loop of `getNextStream` (lines 106-108): subtract 4 while the
value is greater than 4.  Each iteration strictly shrinks `next`, so `next`
itself bounds the iteration count and the fuelled loop is exact. -/
def getNextStreamReduceGo : Nat → Nat → Nat
  | 0, next => next
  | fuel + 1, next =>
    if 4 < next then getNextStreamReduceGo fuel (next - 4) else next

/-- Entry point of the reduction loop with sufficient fuel. -/
def getNextStreamReduce (next : Nat) : Nat :=
  getNextStreamReduceGo next next

/-- `getNextStream` (lines 99-110). -/
def getNextStream (streamType : Nat) (s : SMState) : StreamR × SMState :=
  let next := getNextStreamSearch s (s.streams.length + 1) streamType
  let reduced := getNextStreamReduce next
  getStream reduced s

end StreamManager

/-! ## Long header — src/unnamed/part_001 (`long.header.ts`) -/

namespace LongHeader

/-- Big-endian byte serialization of a value into `len` bytes, as
`Bignum.toBuffer()` produces for a fixed byte length. -/
def toBytesBE (v : Nat) (len : Nat) : List Nat :=
  (List.range len).map (fun i => v / 256 ^ (len - 1 - i) % 256)

/-- Modelled from the spec: the VLIE encoder (`src/crypto/vlie.ts` is not in
the excerpt).  "The top two bits of the first byte encode length class
(1/2/4/8 bytes); the remaining 62 bits hold the value in network order ...
The encoder emits the smallest sufficient class." -/
def vlieEncode (v : Nat) : List Nat :=
  if v < 2 ^ 6 then toBytesBE v 1
  else if v < 2 ^ 14 then toBytesBE (2 ^ 14 + v) 2
  else if v < 2 ^ 30 then toBytesBE (2 ^ 31 + v) 4
  else toBytesBE (2 ^ 63 + 2 ^ 62 + v) 8

/-- Modelled from the spec: `VersionValidation.IsVersionNegotationFlag`
(`src/utilities/validation/version.validation.ts` is not in the excerpt).
"Version Negotiation is distinguished by version == 0." -/
def isVersionNegotiationFlag (version : Nat) : Bool :=
  version = 0

/-- `Constants.LONG_HEADER_PACKET_NUMBER_SIZE`: modelled from the spec's
draft-12 wire format, long headers carry a 4-byte truncated packet number. -/
def LONG_HEADER_PACKET_NUMBER_SIZE : Nat := 4

/-- The fields of a `LongHeader`: packet type, 4-byte version value,
connection IDs as byte strings (a `ConnectionID`'s buffer, whose length is
`getLength()`), the 8-byte packet number value, and the optional payload
length. -/
structure LongHeaderS where
  packetType : Nat
  version : Nat
  destConnectionID : List Nat
  srcConnectionID : List Nat
  packetNumber : Nat
  payloadLength : Option Nat
deriving DecidableEq, Repr

/-- `getSize` (lines 100-112): 6 fixed bytes, the connection IDs, the packet
number when the version is not the Version Negotiation flag, and — whenever
a payload length is set — its VLIE encoding. -/
def getSize (h : LongHeaderS) : Nat :=
  6 + h.destConnectionID.length + h.srcConnectionID.length
    + (if isVersionNegotiationFlag h.version then 0 else LONG_HEADER_PACKET_NUMBER_SIZE)
    + (match h.payloadLength with
       | some l => (vlieEncode l).length
       | none => 0)

/-- `Buffer.copy(buf, offset)`: overwrite `buf` from `offset` with `bytes`,
truncating at the end of `buf`. -/
def bufWrite (buf : List Nat) (offset : Nat) (bytes : List Nat) : List Nat :=
  buf.take offset ++ bytes.take (buf.length - offset) ++ buf.drop (offset + bytes.length)

/-- The nibble byte of `toBuffer` (lines 78-80): each length is written as 0
when the connection ID is empty and as `length - 3` otherwise. -/
def cidLengthByte (h : LongHeaderS) : Nat :=
  (if h.destConnectionID.length = 0 then 0 else h.destConnectionID.length - 3) * 16
    + (if h.srcConnectionID.length = 0 then 0 else h.srcConnectionID.length - 3)

/-- `getLeastSignificantBits` on the 8-byte packet number: its 4
least-significant bytes, big-endian. -/
def packetNumberBytes (h : LongHeaderS) : List Nat :=
  toBytesBE (h.packetNumber % 2 ^ 32) LONG_HEADER_PACKET_NUMBER_SIZE

/-- `toBuffer` (lines 69-94): allocate `getSize()` zero bytes, then write in
order the type byte `0x80 + type`, the 4-byte version, the nibble byte, the
two connection IDs, and — when the version is not the Version Negotiation
flag — the VLIE-encoded payload length (when set) and the truncated packet
number. -/
def toBuffer (h : LongHeaderS) : List Nat :=
  let buf0 := List.replicate (getSize h) 0
  let b1 := bufWrite buf0 0 [128 + h.packetType]
  let b2 := bufWrite b1 1 (toBytesBE h.version 4)
  let b3 := bufWrite b2 5 [cidLengthByte h]
  let b4 := bufWrite b3 6 h.destConnectionID
  let off5 := 6 + h.destConnectionID.length
  let b5 := bufWrite b4 off5 h.srcConnectionID
  let off6 := off5 + h.srcConnectionID.length
  if isVersionNegotiationFlag h.version then b5
  else
    match h.payloadLength with
    | some l =>
      let b6 := bufWrite b5 off6 (vlieEncode l)
      bufWrite b6 (off6 + (vlieEncode l).length) (packetNumberBytes h)
    | none => bufWrite b5 off6 (packetNumberBytes h)

/-- The layout the spec describes, word for word: one byte `0x80 | type`,
the 4-byte version, the connection-ID length nibbles, destination CID,
source CID, then — exactly when the version is not the Version Negotiation
flag — the VLIE-encoded payload length followed by the truncated packet
number. -/
def describedLayout (h : LongHeaderS) : List Nat :=
  [128 ||| h.packetType] ++ toBytesBE h.version 4 ++ [cidLengthByte h]
    ++ h.destConnectionID ++ h.srcConnectionID
    ++ (if isVersionNegotiationFlag h.version then []
        else
          (match h.payloadLength with
           | some l => vlieEncode l
           | none => []) ++ packetNumberBytes h)

end LongHeader

/-! ## Alarm — src/unnamed/part_004 (`types/alarm.ts`) -/

namespace Alarm

/-- The alarm's observable state: the `running` flag, the pending timer's
deadline (`none` when no armed `setTimeout` is outstanding), and the number
of `TIMEOUT` events emitted so far. -/
structure AlarmState where
  running : Bool
  timer : Option Nat
  timeouts : Nat
deriving DecidableEq, Repr

/-- Constructor (lines 10-13): not running, no timer armed. -/
def initialAlarm : AlarmState :=
  { running := false, timer := none, timeouts := 0 }

/-- `reset` (lines 15-21): a no-op unless running; otherwise clear the flag
and cancel the pending timer (`clearTimeout`). -/
def reset (s : AlarmState) : AlarmState :=
  if !s.running then s
  else { s with running := false, timer := none }

/-- `start` (lines 23-31): a no-op while running; otherwise set the flag and
arm a single-shot timer for `timeInMs`. -/
def start (timeInMs : Nat) (s : AlarmState) : AlarmState :=
  if s.running then s
  else { s with running := true, timer := some timeInMs }

/-- The armed `setTimeout` firing: the single-shot timer is consumed, then
`onTimeout` (lines 33-38) runs — if the alarm is still running it stops and
emits `TIMEOUT` exactly once.  Without an armed timer nothing can fire. -/
def fire (s : AlarmState) : AlarmState :=
  match s.timer with
  | none => s
  | some _ =>
    let s1 := { s with timer := none }
    if s1.running then { s1 with running := false, timeouts := s1.timeouts + 1 }
    else s1

/-- The operations the environment can perform on an alarm. -/
inductive AlarmOp where
  | opReset
  | opStart (timeInMs : Nat)
  | opFire

/-- One operation. -/
def alarmStep (s : AlarmState) : AlarmOp → AlarmState
  | .opReset => reset s
  | .opStart t => start t s
  | .opFire => fire s

/-- Run an operation sequence from the constructor state. -/
def alarmRun (ops : List AlarmOp) : AlarmState :=
  ops.foldl alarmStep initialAlarm

end Alarm

deriving instance DecidableEq for Except

/-! ## Theorems -/

/-- Claim C1: the packet-number recovery round-trip fails on the code.
`getBitSize` returns 7/14/30 bits for widths 1/2/4 bytes, so `adjustNumber`
adjusts by `2^14` instead of `2^16` at width 2: on the draft's own vector
(largest `0xa82f30ea`, truncated `0x9b32`, width 2 bytes) the code returns
`0xa82f5b32`, while the algorithm in the function's own doc comment — and
the spec — recovers `0xa82f9b32`. -/
theorem adjustNumber_draft_vector :
    PacketNumber.adjustNumber 0xa82f30ea 0x9b32 2 = 0xa82f5b32 ∧
    PacketNumber.decodePacketNumberDocumented 0xa82f30ea 0x9b32 2 = 0xa82f9b32 ∧
    (0xa82f5b32 : Int) ≠ 0xa82f9b32 := by
  refine ⟨by decide, by decide, by decide⟩

/-- Claim C4: `getNextStream` does not return the minimum unused stream ID
of the requested type.  With exactly one stream, of ID 1, in the manager,
`getNextStream 1` should return a fresh stream with ID 5 (the least unused
ID congruent to 1 mod 4, since ID 5 is absent), but the mod-4 reduction loop
drives `next` back down and the call returns the already-present stream 1,
leaving the manager unchanged. -/
theorem getNextStream_returns_existing_stream :
    (StreamManager.getNextStream 1 ⟨[⟨1, none, none⟩], none, none, []⟩).1.streamId = 1 ∧
    StreamManager.hasStream 1 ⟨[⟨1, none, none⟩], none, none, []⟩ = true ∧
    StreamManager.underscoreGetStream 5 ⟨[⟨1, none, none⟩], none, none, []⟩ = none ∧
    (StreamManager.getNextStream 1 ⟨[⟨1, none, none⟩], none, none, []⟩).2
      = ⟨[⟨1, none, none⟩], none, none, []⟩ := by
  refine ⟨by decide, by decide, by decide, by decide⟩

namespace CongestionControl

theorem sendPackets_fields (s : CCState) :
    (sendPackets s).bytesInFlight = s.bytesInFlight ∧
    (sendPackets s).congestionWindow = s.congestionWindow ∧
    (sendPackets s).endOfRecovery = s.endOfRecovery ∧
    (sendPackets s).sshtresh = s.sshtresh := by
  simp [sendPackets]

theorem applyEvent_window_ge (s : CCState) (e : CCEvent)
    (h : MINIMUM_WINDOW ≤ s.congestionWindow) :
    MINIMUM_WINDOW ≤ (applyEvent s e).congestionWindow := by
  cases e with
  | packetSent p =>
    simp only [applyEvent, onPacketSent]
    split <;> simpa using h
  | packetAcked p =>
    simp only [applyEvent, onPacketAcked]
    split
    · exact h
    · split
      · exact h
      · split <;>
          · simp only [(sendPackets_fields _).2.1]
            exact le_trans h (Nat.le_add_right _ _)
  | packetsLost ps =>
    simp only [applyEvent, onPacketsLost, (sendPackets_fields _).2.1]
    split
    · exact Nat.le_max_right _ _
    · exact h
  | retransmissionTimeoutVerified =>
    simp only [applyEvent, onRetransmissionTimeoutVerified]
    exact le_refl _

theorem foldl_window_ge (events : List CCEvent) (s : CCState)
    (h : MINIMUM_WINDOW ≤ s.congestionWindow) :
    MINIMUM_WINDOW ≤ (events.foldl applyEvent s).congestionWindow := by
  induction events generalizing s with
  | nil => exact h
  | cons e rest ih => exact ih _ (applyEvent_window_ge s e h)

end CongestionControl

/-- Claim C6: in every state reachable from the constructor state under any
sequence of sent/acked/lost/RTO-verified events, the congestion window stays
at or above `2 × DEFAULT_MSS` (2920 bytes); a loss event either leaves the
window unchanged (no new epoch) or halves it floored at the minimum window,
and an RTO-verified event sets it to exactly `2 × DEFAULT_MSS`. -/
theorem congestionWindow_minimum_invariant :
    (∀ events : List CongestionControl.CCEvent,
      CongestionControl.MINIMUM_WINDOW ≤ (CongestionControl.run events).congestionWindow) ∧
    (∀ s : CongestionControl.CCState,
      (CongestionControl.onRetransmissionTimeoutVerified s).congestionWindow
        = CongestionControl.DEFAULT_MSS * 2) ∧
    (∀ (s : CongestionControl.CCState) (ps : List CongestionControl.QPacket),
      (CongestionControl.onPacketsLost s ps).congestionWindow = s.congestionWindow ∨
      (CongestionControl.onPacketsLost s ps).congestionWindow
        = Nat.max (s.congestionWindow / 2) CongestionControl.MINIMUM_WINDOW) := by
  refine ⟨fun events => CongestionControl.foldl_window_ge events _ (by decide), fun s => rfl, fun s ps => ?_⟩
  simp only [CongestionControl.onPacketsLost, (CongestionControl.sendPackets_fields _).2.1]
  split
  · exact Or.inr rfl
  · exact Or.inl rfl

/-- Claim C5: acknowledging a non-ack-only packet of size `s` lowers
`bytesInFlight` by `s`; in recovery (packet number ≤ `endOfRecovery`) the
window is unchanged; otherwise slow start (`congestionWindow < sshtresh`,
with an infinite initial threshold) grows the window by exactly `s` and
congestion avoidance grows it by exactly `DEFAULT_MSS × s / congestionWindow`
(integer division).  An ack-only packet changes nothing. -/
theorem onPacketAcked_processing
    (s : CongestionControl.CCState) (p : CongestionControl.QPacket) :
    (p.ackOnly = true → CongestionControl.onPacketAcked s p = s) ∧
    (p.ackOnly = false →
      (CongestionControl.onPacketAcked s p).bytesInFlight = s.bytesInFlight - p.size ∧
      (p.pn ≤ s.endOfRecovery →
        (CongestionControl.onPacketAcked s p).congestionWindow = s.congestionWindow) ∧
      (¬ p.pn ≤ s.endOfRecovery →
        (CongestionControl.ltSshtresh s.congestionWindow s.sshtresh = true →
          (CongestionControl.onPacketAcked s p).congestionWindow
            = s.congestionWindow + p.size) ∧
        (CongestionControl.ltSshtresh s.congestionWindow s.sshtresh = false →
          (CongestionControl.onPacketAcked s p).congestionWindow
            = s.congestionWindow + CongestionControl.DEFAULT_MSS * p.size / s.congestionWindow))) := by
  constructor
  · intro hAck
    simp [CongestionControl.onPacketAcked, hAck]
  · intro hAck
    refine ⟨?_, ?_, ?_⟩
    · simp only [CongestionControl.onPacketAcked, hAck, Bool.false_eq_true, if_false]
      split
      · rfl
      · split <;> simp [(CongestionControl.sendPackets_fields _).1]
    · intro hRec
      simp [CongestionControl.onPacketAcked, hAck, CongestionControl.inRecovery, hRec]
    · intro hRec
      constructor
      · intro hSlow
        simp [CongestionControl.onPacketAcked, hAck, CongestionControl.inRecovery, hRec,
          hSlow, (CongestionControl.sendPackets_fields _).2.1]
      · intro hAvoid
        simp [CongestionControl.onPacketAcked, hAck, CongestionControl.inRecovery, hRec,
          hAvoid, (CongestionControl.sendPackets_fields _).2.1]

/-- Witness for C5: acknowledging a non-ack-only packet of size 100 and
number 5 in the constructor state lowers `bytesInFlight` from 0 to −100 and
(slow start under an infinite threshold) grows the window from 14600 to
14700. -/
theorem onPacketAcked_processing_witness :
    (CongestionControl.onPacketAcked CongestionControl.initialCC ⟨5, 100, false⟩).bytesInFlight
      = CongestionControl.initialCC.bytesInFlight - 100 ∧
    (CongestionControl.onPacketAcked CongestionControl.initialCC ⟨5, 100, false⟩).congestionWindow
      = CongestionControl.initialCC.congestionWindow + 100 := by
  have h := onPacketAcked_processing CongestionControl.initialCC ⟨5, 100, false⟩
  exact ⟨(h.2 rfl).1, ((h.2 rfl).2.2 (by decide)).1 rfl⟩

namespace CongestionControl

theorem sendPackets_of_blocked (s : CCState)
    (h : (s.congestionWindow : Int) ≤ s.bytesInFlight) : sendPackets s = s := by
  have hlt : ¬ s.bytesInFlight < (s.congestionWindow : Int) := not_lt.mpr h
  unfold sendPackets
  cases hq : s.packetsQueue with
  | nil => simp [sendPacketsGo, ← hq]
  | cons p rest => simp [sendPacketsGo, hlt, ← hq]

end CongestionControl

/-- Claim C7: the send loop is gated by the congestion window.  When
`bytesInFlight ≥ congestionWindow`, `sendPackets` dispatches nothing (the
state is untouched) and `queuePackets` only appends to the queue; and
whenever `sendPackets` dispatches anything at all (the `PACKET_SENT` log
grows), the dispatching state satisfied `bytesInFlight < congestionWindow`. -/
theorem sendPackets_window_gate
    (s : CongestionControl.CCState) (ps : List CongestionControl.QPacket) :
    ((s.congestionWindow : Int) ≤ s.bytesInFlight →
      CongestionControl.sendPackets s = s ∧
      CongestionControl.queuePackets s ps
        = { s with packetsQueue := s.packetsQueue ++ ps }) ∧
    ((CongestionControl.sendPackets s).sentLog ≠ s.sentLog →
      s.bytesInFlight < (s.congestionWindow : Int)) := by
  constructor
  · intro h
    refine ⟨CongestionControl.sendPackets_of_blocked s h, ?_⟩
    exact CongestionControl.sendPackets_of_blocked _ h
  · intro hchanged
    by_contra hge
    exact hchanged (by rw [CongestionControl.sendPackets_of_blocked s (not_lt.mp hge)])

/-- Witness for C7: with 20000 bytes in flight against a 14600-byte window
nothing is dispatched and queueing a packet only appends it; with 0 bytes in
flight a queued packet is dispatched, and the dispatching state indeed had
`bytesInFlight < congestionWindow`. -/
theorem sendPackets_window_gate_witness :
    (CongestionControl.sendPackets
        { CongestionControl.initialCC with bytesInFlight := 20000 }
      = { CongestionControl.initialCC with bytesInFlight := 20000 } ∧
     CongestionControl.queuePackets
        { CongestionControl.initialCC with bytesInFlight := 20000 } [⟨1, 500, false⟩]
      = { CongestionControl.initialCC with
            bytesInFlight := 20000, packetsQueue := [⟨1, 500, false⟩] }) ∧
    ({ CongestionControl.initialCC with
        packetsQueue := [⟨1, 500, false⟩] } : CongestionControl.CCState).bytesInFlight
      < ({ CongestionControl.initialCC with
            packetsQueue := [⟨1, 500, false⟩] } : CongestionControl.CCState).congestionWindow := by
  constructor
  · exact (sendPackets_window_gate
      { CongestionControl.initialCC with bytesInFlight := 20000 } [⟨1, 500, false⟩]).1
      (by decide)
  · exact_mod_cast (sendPackets_window_gate
      { CongestionControl.initialCC with packetsQueue := [⟨1, 500, false⟩] } []).2
      (by decide)

namespace Alarm

theorem alarmStep_running_iff_armed (s : AlarmState) (op : AlarmOp)
    (h : s.running = s.timer.isSome) :
    (alarmStep s op).running = (alarmStep s op).timer.isSome := by
  cases op with
  | opReset =>
    simp only [alarmStep, reset]
    split
    · exact h
    · rfl
  | opStart t =>
    simp only [alarmStep, start]
    split
    · exact h
    · rfl
  | opFire =>
    simp only [alarmStep, fire]
    cases ht : s.timer with
    | none => exact h
    | some d =>
      simp only []
      split
      · rfl
      · next hrun =>
        rw [ht] at h
        simp only [Option.isSome_some] at h
        exact absurd h (by simpa using hrun)

theorem alarmRun_running_iff_armed (ops : List AlarmOp) :
    (alarmRun ops).running = (alarmRun ops).timer.isSome := by
  suffices h : ∀ s : AlarmState, s.running = s.timer.isSome →
      (ops.foldl alarmStep s).running = (ops.foldl alarmStep s).timer.isSome by
    exact h initialAlarm rfl
  induction ops with
  | nil => exact fun s hs => hs
  | cons op rest ih =>
    exact fun s hs => ih _ (alarmStep_running_iff_armed s op hs)

end Alarm

/-- Claim C9: the alarm is single-shot and its control operations are no-ops
in the wrong state.  `reset` while not running changes nothing; `start`
while running changes nothing (so arming twice with the same deadline is
idempotent); firing without an armed timer changes nothing; and in every
reachable state the alarm is running exactly while a timer is armed, so when
a reachable running alarm fires, `TIMEOUT` is emitted exactly once, the
alarm ends up not running with no timer armed, and firing again is a no-op
until `start` is called anew. -/
theorem alarm_single_shot :
    (∀ s : Alarm.AlarmState, s.running = false → Alarm.reset s = s) ∧
    (∀ (s : Alarm.AlarmState) (t : Nat), s.running = true → Alarm.start t s = s) ∧
    (∀ (s : Alarm.AlarmState) (t : Nat),
      Alarm.start t (Alarm.start t s) = Alarm.start t s) ∧
    (∀ s : Alarm.AlarmState, s.timer = none → Alarm.fire s = s) ∧
    (∀ ops : List Alarm.AlarmOp,
      (Alarm.alarmRun ops).running = (Alarm.alarmRun ops).timer.isSome ∧
      ((Alarm.alarmRun ops).running = true →
        (Alarm.fire (Alarm.alarmRun ops)).timeouts = (Alarm.alarmRun ops).timeouts + 1 ∧
        (Alarm.fire (Alarm.alarmRun ops)).running = false ∧
        (Alarm.fire (Alarm.alarmRun ops)).timer = none ∧
        Alarm.fire (Alarm.fire (Alarm.alarmRun ops)) = Alarm.fire (Alarm.alarmRun ops))) := by
  refine ⟨?_, ?_, ?_, ?_, ?_⟩
  · intro s hs
    simp [Alarm.reset, hs]
  · intro s t hs
    simp [Alarm.start, hs]
  · intro s t
    by_cases hs : s.running
    · simp [Alarm.start, hs]
    · simp [Alarm.start, hs]
  · intro s hs
    simp [Alarm.fire, hs]
  · intro ops
    refine ⟨Alarm.alarmRun_running_iff_armed ops, ?_⟩
    intro hrun
    have harm := Alarm.alarmRun_running_iff_armed ops
    rw [hrun] at harm
    obtain ⟨d, hd⟩ := Option.isSome_iff_exists.mp harm.symm
    have hfire : Alarm.fire (Alarm.alarmRun ops)
        = { running := false, timer := none,
            timeouts := (Alarm.alarmRun ops).timeouts + 1 } := by
      simp [Alarm.fire, hd, hrun]
    rw [hfire]
    exact ⟨rfl, rfl, rfl, rfl⟩

/-- Witness for C9: resetting the never-started alarm changes nothing;
starting an armed running alarm changes nothing; and firing after
`start 5` from the constructor state emits the one `TIMEOUT`. -/
theorem alarm_single_shot_witness :
    Alarm.reset Alarm.initialAlarm = Alarm.initialAlarm ∧
    Alarm.start 5 ⟨true, some 5, 0⟩ = (⟨true, some 5, 0⟩ : Alarm.AlarmState) ∧
    (Alarm.fire (Alarm.alarmRun [Alarm.AlarmOp.opStart 5])).timeouts
      = (Alarm.alarmRun [Alarm.AlarmOp.opStart 5]).timeouts + 1 := by
  refine ⟨alarm_single_shot.1 _ rfl, alarm_single_shot.2.1 _ 5 rfl, ?_⟩
  exact ((alarm_single_shot.2.2.2.2 [Alarm.AlarmOp.opStart 5]).2 (by decide)).1

namespace PacketHandler

theorem cidFold_preserves_inv (acc : CIDConnState × Nat × Nat) (e : CIDEvent)
    (h : cidInv acc) : cidInv (cidFold acc e) := by
  obtain ⟨h1, h2, h3, h4⟩ := h
  cases e with
  | retry cid =>
    cases hd : acc.1.destConnectionID with
    | none =>
      obtain ⟨hrs, hrc, hhc⟩ := h3 hd
      simp [cidFold, cidStep, handleRetryPacket, hd, cidInv, hrc, hhc]
    | some d =>
      have hstep : cidStep acc.1 (.retry cid) = acc.1 := by
        by_cases hcid : d = cid <;> simp [cidStep, handleRetryPacket, hd, hcid]
      have hfold : cidFold acc (.retry cid) = acc := by
        simp [cidFold, hstep]
      rw [hfold]
      exact ⟨h1, h2, h3, h4⟩
  | handshake cid =>
    cases hd : acc.1.destConnectionID with
    | none =>
      obtain ⟨hrs, hrc, hhc⟩ := h3 hd
      simp [cidFold, cidStep, handleHandshakePacket, hd, cidInv, hrc, hhc]
    | some d =>
      cases hrs : acc.1.retrySent with
      | true =>
        obtain ⟨hrc, hhc⟩ := h4 hrs
        by_cases hcid : some cid = some d <;>
          simp [cidFold, cidStep, handleHandshakePacket, hd, hrs, hcid, cidInv, hrc, hhc]
      | false =>
        by_cases hcid : d = cid
        · simp [cidFold, cidStep, handleHandshakePacket, hd, hrs, hcid, cidInv, h1, h2, h3, h4]
        · simp [cidFold, cidStep, handleHandshakePacket, hd, hrs, hcid, cidInv, h1, h2, h3, h4]

theorem cidRun_inv (events : List CIDEvent) : cidInv (cidRun events) := by
  suffices h : ∀ acc, cidInv acc → cidInv (events.foldl cidFold acc) by
    exact h (initialCIDState, 0, 0) (by simp [cidInv, initialCIDState])
  induction events with
  | nil => exact fun acc h => h
  | cons e rest ih => exact fun acc h => ih _ (cidFold_preserves_inv acc e h)

end PacketHandler

/-- Claim C3: the client's destination connection ID is replaced at most
once by a Retry and at most once by a Handshake (the latter also covering
the once-more replacement on the first Handshake after a Retry), and any
later Retry — or any later Handshake once no Retry is pending — whose
source connection ID differs from the learned destination ID raises the
local `IGNORE_PACKET_ERROR` and leaves the connection state, including the
learned destination ID, unchanged. -/
theorem connectionID_discipline
    (s : PacketHandler.CIDConnState) (d srcCID : Nat) :
    (s.destConnectionID = some d → d ≠ srcCID →
      PacketHandler.handleRetryPacket srcCID s
          = .error .IGNORE_PACKET_ERROR ∧
      PacketHandler.cidStep s (.retry srcCID) = s) ∧
    (s.destConnectionID = some d → s.retrySent = false → d ≠ srcCID →
      PacketHandler.handleHandshakePacket srcCID s
          = .error .IGNORE_PACKET_ERROR ∧
      PacketHandler.cidStep s (.handshake srcCID) = s) ∧
    (∀ events : List PacketHandler.CIDEvent,
      (PacketHandler.cidRun events).2.1 ≤ 1 ∧
      (PacketHandler.cidRun events).2.2 ≤ 1) := by
  refine ⟨?_, ?_, ?_⟩
  · intro hd hne
    constructor
    · simp [PacketHandler.handleRetryPacket, hd, hne]
    · simp [PacketHandler.cidStep, PacketHandler.handleRetryPacket, hd, hne]
  · intro hd hrs hne
    constructor
    · simp [PacketHandler.handleHandshakePacket, hd, hrs, hne]
    · simp [PacketHandler.cidStep, PacketHandler.handleHandshakePacket, hd, hrs, hne]
  · intro events
    have h := PacketHandler.cidRun_inv events
    exact ⟨h.1, h.2.1⟩

/-- Witness for C3: with destination ID 7 learned and no Retry pending, a
Retry and a Handshake carrying source ID 9 both raise `IGNORE_PACKET_ERROR`
and leave the state unchanged. -/
theorem connectionID_discipline_witness :
    (PacketHandler.handleRetryPacket 9 ⟨some 7, false⟩
        = .error .IGNORE_PACKET_ERROR ∧
      PacketHandler.cidStep ⟨some 7, false⟩ (.retry 9) = ⟨some 7, false⟩) ∧
    (PacketHandler.handleHandshakePacket 9 ⟨some 7, false⟩
        = .error .IGNORE_PACKET_ERROR ∧
      PacketHandler.cidStep ⟨some 7, false⟩ (.handshake 9) = ⟨some 7, false⟩) := by
  have h := connectionID_discipline ⟨some 7, false⟩ 7 9
  exact ⟨h.1 rfl (by decide), h.2.1 rfl rfl (by decide)⟩

namespace StreamManager

theorem findFold_some_id (streamId : Nat) (l : List StreamR) :
    ∀ acc : Option StreamR, (∀ st, acc = some st → st.streamId = streamId) →
      ∀ st, l.foldl
          (fun res stream => if stream.streamId = streamId then some stream else res)
          acc = some st →
        st.streamId = streamId := by
  induction l with
  | nil => exact fun acc hacc st hst => hacc st hst
  | cons hd tl ih =>
    intro acc hacc st hst
    refine ih _ ?_ st hst
    intro st' hst'
    by_cases hhd : hd.streamId = streamId
    · simp only [List.foldl, hhd, if_true] at hst'
      obtain rfl : hd = st' := by injection hst'
      exact hhd
    · simp only [List.foldl, hhd, if_false] at hst'
      exact hacc st' hst'

theorem findFold_none_iff (streamId : Nat) (l : List StreamR) :
    ∀ acc : Option StreamR,
      (l.foldl
          (fun res stream => if stream.streamId = streamId then some stream else res)
          acc = none)
        ↔ (acc = none ∧ ∀ st ∈ l, st.streamId ≠ streamId) := by
  induction l with
  | nil => simp
  | cons hd tl ih =>
    intro acc
    by_cases hhd : hd.streamId = streamId
    · simp only [List.foldl_cons, hhd, if_true, ih]
      constructor
      · rintro ⟨h, -⟩
        exact absurd h (by simp)
      · rintro ⟨-, hall⟩
        exact absurd hhd (hall hd (by simp))
    · simp only [List.foldl_cons, hhd, if_false, ih]
      constructor
      · rintro ⟨h1, h2⟩
        refine ⟨h1, ?_⟩
        intro st hst
        rcases List.mem_cons.mp hst with rfl | hmem
        · exact hhd
        · exact h2 st hmem
      · rintro ⟨h1, h2⟩
        exact ⟨h1, fun st hst => h2 st (List.mem_cons_of_mem _ hst)⟩

theorem underscoreGetStream_some_id (streamId : Nat) (s : SMState) (st : StreamR)
    (h : underscoreGetStream streamId s = some st) : st.streamId = streamId :=
  findFold_some_id streamId s.streams none (by simp) st h

theorem underscoreGetStream_none_iff (streamId : Nat) (s : SMState) :
    underscoreGetStream streamId s = none ↔ ∀ st ∈ s.streams, st.streamId ≠ streamId := by
  simpa using findFold_none_iff streamId s.streams none

end StreamManager

/-- Claim C10: `getStream` is total and creating.  It always returns a
stream whose ID is the requested one; afterwards `hasStream` holds; if the
stream already existed the manager is returned unchanged; if it did not, the
new stream inherits the configured local and remote max-stream-data limits,
is appended to the stream list, and `INITIALIZED_STREAM` is emitted for it;
and a manager with pairwise-distinct stream IDs never ends up holding two
streams with the same ID. -/
theorem getStream_total_and_creating (s : StreamManager.SMState) (streamId : Nat) :
    ((StreamManager.getStream streamId s).1.streamId = streamId) ∧
    (StreamManager.hasStream streamId (StreamManager.getStream streamId s).2 = true) ∧
    (StreamManager.hasStream streamId s = true →
      (StreamManager.getStream streamId s).2 = s) ∧
    (StreamManager.hasStream streamId s = false →
      (StreamManager.getStream streamId s).1
          = ⟨streamId, s.localMaxStreamData, s.remoteMaxStreamData⟩ ∧
      (StreamManager.getStream streamId s).2.streams
          = s.streams ++ [⟨streamId, s.localMaxStreamData, s.remoteMaxStreamData⟩] ∧
      (StreamManager.getStream streamId s).2.initializedLog
          = s.initializedLog ++ [streamId]) ∧
    ((s.streams.map (fun st => st.streamId)).Nodup →
      ((StreamManager.getStream streamId s).2.streams.map (fun st => st.streamId)).Nodup) := by
  cases hfind : StreamManager.underscoreGetStream streamId s with
  | some st =>
    have hid := StreamManager.underscoreGetStream_some_id streamId s st hfind
    have hget : StreamManager.getStream streamId s = (st, s) := by
      simp [StreamManager.getStream, hfind]
    refine ⟨by rw [hget]; exact hid, ?_, fun _ => by rw [hget], ?_, ?_⟩
    · rw [hget]
      simp [StreamManager.hasStream, hfind]
    · intro hfalse
      exact absurd hfalse (by simp [StreamManager.hasStream, hfind])
    · intro hnodup
      rw [hget]
      exact hnodup
  | none =>
    have habsent := (StreamManager.underscoreGetStream_none_iff streamId s).mp hfind
    have hadd : StreamManager.addStream
        ⟨streamId, s.localMaxStreamData, s.remoteMaxStreamData⟩ s
        = { s with streams :=
              s.streams ++ [⟨streamId, s.localMaxStreamData, s.remoteMaxStreamData⟩] } := by
      simp [StreamManager.addStream, hfind]
    have hget : StreamManager.getStream streamId s
        = (⟨streamId, s.localMaxStreamData, s.remoteMaxStreamData⟩,
           { s with
              streams :=
                s.streams ++ [⟨streamId, s.localMaxStreamData, s.remoteMaxStreamData⟩],
              initializedLog := s.initializedLog ++ [streamId] }) := by
      simp [StreamManager.getStream, hfind, StreamManager.initializeStream, hadd]
    refine ⟨by rw [hget], ?_, fun htrue => ?_, fun _ => by rw [hget]; exact ⟨rfl, rfl, rfl⟩, ?_⟩
    · rw [hget]
      simp [StreamManager.hasStream, StreamManager.underscoreGetStream, List.foldl_append]
    · exact absurd htrue (by simp [StreamManager.hasStream, hfind])
    · intro hnodup
      rw [hget]
      simp only [List.map_append, List.map_cons, List.map_nil]
      rw [List.nodup_append]
      refine ⟨hnodup, List.nodup_singleton _, ?_⟩
      intro a ha hb
      simp only [List.mem_singleton] at hb
      subst hb
      obtain ⟨st, hst, hsteq⟩ := List.mem_map.mp ha
      exact habsent st hst hsteq

/-- Witness for C10: looking up stream 4 in an empty manager configured with
limits 1000/2000 creates stream ⟨4, 1000, 2000⟩, records it, announces it,
and keeps the IDs distinct. -/
theorem getStream_total_and_creating_witness :
    (StreamManager.getStream 4 ⟨[], some 1000, some 2000, []⟩).1
        = ⟨4, some 1000, some 2000⟩ ∧
    (StreamManager.getStream 4 ⟨[], some 1000, some 2000, []⟩).2.streams
        = [⟨4, some 1000, some 2000⟩] ∧
    (StreamManager.getStream 4 ⟨[], some 1000, some 2000, []⟩).2.initializedLog = [4] ∧
    ((StreamManager.getStream 4
        ⟨[], some 1000, some 2000, []⟩).2.streams.map (fun st => st.streamId)).Nodup := by
  have h := getStream_total_and_creating ⟨[], some 1000, some 2000, []⟩ 4
  obtain ⟨h1, h2, h3⟩ := h.2.2.2.1 (by decide)
  exact ⟨h1, h2, h3, h.2.2.2.2 (by decide)⟩

namespace PacketHandler

theorem containsChosenVersion_go (chosen : String) (l : List String) :
    ∀ b : Bool,
      l.foldl (fun acc v => acc || (v == chosen)) b
        = (b || l.any (fun v => v == chosen)) := by
  induction l with
  | nil => simp
  | cons hd tl ih =>
    intro b
    simp only [List.foldl_cons, List.any_cons, ih, Bool.or_assoc]

theorem containsChosenVersion_iff (chosen : String) (l : List String) :
    containsChosenVersion chosen l = true ↔ chosen ∈ l := by
  rw [containsChosenVersion, containsChosenVersion_go]
  simp [List.any_eq_true]

theorem pickFold_none (supported : List String) (l : List String) :
    ∀ acc : Option String,
      l.foldl
          (fun negotiated v =>
            if supported.contains v then
              match negotiated with
              | none => some v
              | some w => if w < v then some v else some w
            else negotiated)
          acc = none →
      acc = none ∧ ∀ v ∈ l, supported.contains v = false := by
  induction l with
  | nil => exact fun acc h => ⟨h, by simp⟩
  | cons hd tl ih =>
    intro acc h
    rw [List.foldl_cons] at h
    obtain ⟨hstep, htl⟩ := ih _ h
    by_cases hc : supported.contains hd
    · exfalso
      rw [if_pos hc] at hstep
      cases hacc : acc with
      | none => rw [hacc] at hstep; exact Option.noConfusion hstep
      | some w =>
        rw [hacc] at hstep
        by_cases hlt : w < hd <;> simp [hlt] at hstep
    · rw [if_neg hc] at hstep
      refine ⟨hstep, ?_⟩
      intro v hv
      rcases List.mem_cons.mp hv with rfl | hmem
      · exact Bool.not_eq_true _ ▸ (by simpa using hc)
      · exact htl v hmem

theorem pickFold_some (supported : List String) (l : List String) :
    ∀ (acc : Option String) (m : String),
      l.foldl
          (fun negotiated v =>
            if supported.contains v then
              match negotiated with
              | none => some v
              | some w => if w < v then some v else some w
            else negotiated)
          acc = some m →
      (acc = some m ∨ (m ∈ l ∧ supported.contains m = true)) ∧
      (∀ v ∈ l, supported.contains v = true → v ≤ m) ∧
      (∀ a, acc = some a → a ≤ m) := by
  induction l with
  | nil =>
    intro acc m h
    refine ⟨Or.inl h, by simp, ?_⟩
    intro a ha
    rw [ha] at h
    obtain rfl : a = m := by injection h
    exact le_refl a
  | cons hd tl ih =>
    intro acc m h
    rw [List.foldl_cons] at h
    by_cases hc : supported.contains hd
    · cases hacc : acc with
      | none =>
        rw [hacc, if_pos hc] at h
        obtain ⟨ih1, ih2, ih3⟩ := ih (some hd) m h
        have hhdm : hd ≤ m := ih3 hd rfl
        refine ⟨?_, ?_, ?_⟩
        · rcases ih1 with heq | ⟨hmem, hcm⟩
          · obtain rfl : hd = m := by injection heq
            exact Or.inr ⟨List.mem_cons_self _ _, hc⟩
          · exact Or.inr ⟨List.mem_cons_of_mem _ hmem, hcm⟩
        · intro v hv hvc
          rcases List.mem_cons.mp hv with rfl | hmem
          · exact hhdm
          · exact ih2 v hmem hvc
        · intro a ha
          exact Option.noConfusion ha
      | some w =>
        by_cases hlt : w < hd
        · simp only [hacc, if_pos hc, hlt, if_true] at h
          obtain ⟨ih1, ih2, ih3⟩ := ih (some hd) m h
          have hhdm : hd ≤ m := ih3 hd rfl
          refine ⟨?_, ?_, ?_⟩
          · rcases ih1 with heq | ⟨hmem, hcm⟩
            · obtain rfl : hd = m := by injection heq
              exact Or.inr ⟨List.mem_cons_self _ _, hc⟩
            · exact Or.inr ⟨List.mem_cons_of_mem _ hmem, hcm⟩
          · intro v hv hvc
            rcases List.mem_cons.mp hv with rfl | hmem
            · exact hhdm
            · exact ih2 v hmem hvc
          · intro a ha
            obtain rfl : w = a := by injection ha
            exact le_trans (le_of_lt hlt) hhdm
        · simp only [hacc, if_pos hc, hlt, if_false] at h
          obtain ⟨ih1, ih2, ih3⟩ := ih (some w) m h
          have hwm : w ≤ m := ih3 w rfl
          have hhdw : hd ≤ w := le_of_not_lt hlt
          refine ⟨?_, ?_, ?_⟩
          · rcases ih1 with heq | ⟨hmem, hcm⟩
            · exact Or.inl (hacc ▸ heq)
            · exact Or.inr ⟨List.mem_cons_of_mem _ hmem, hcm⟩
          · intro v hv hvc
            rcases List.mem_cons.mp hv with rfl | hmem
            · exact le_trans hhdw hwm
            · exact ih2 v hmem hvc
          · intro a ha
            obtain rfl : w = a := by injection ha
            exact hwm
    · rw [if_neg hc] at h
      obtain ⟨ih1, ih2, ih3⟩ := ih acc m h
      refine ⟨?_, ?_, ih3⟩
      · rcases ih1 with heq | ⟨hmem, hcm⟩
        · exact Or.inl heq
        · exact Or.inr ⟨List.mem_cons_of_mem _ hmem, hcm⟩
      · intro v hv hvc
        rcases List.mem_cons.mp hv with rfl | hmem
        · exact absurd hvc (by simpa using hc)
        · exact ih2 v hmem hvc

end PacketHandler

namespace PacketHandler

theorem contains_iff_mem_str (l : List String) (v : String) :
    l.contains v = true ↔ v ∈ l := by
  simp

end PacketHandler

/-- Claim C2: on a VersionNegotiation packet the client (1) does nothing if
its current version already differs from its initial version, (2) raises
`VERSION_NEGOTIATION_ERROR` if the echoed source/destination connection IDs
do not match its initial destination and source IDs, (3) ignores the packet
if the peer's list contains its chosen (initial) version, and otherwise
(4) resets to the lexicographically highest version string present in both
the peer's list and the local supported list, raising
`VERSION_NEGOTIATION_ERROR` when no common version exists. -/
theorem handleVersionNegotiation_cases
    (supported : List String) (conn : PacketHandler.VNConnState)
    (pkt : PacketHandler.VNPacket) :
    (conn.version ≠ conn.initialVersion →
      PacketHandler.handleVersionNegotiationPacket supported conn pkt = .ok none) ∧
    (conn.version = conn.initialVersion →
      (conn.initialDestConnectionID ≠ pkt.srcConnectionID ∨
        conn.srcConnectionID ≠ pkt.destConnectionID) →
      PacketHandler.handleVersionNegotiationPacket supported conn pkt
        = .error .VERSION_NEGOTIATION_ERROR) ∧
    (conn.version = conn.initialVersion →
      conn.initialDestConnectionID = pkt.srcConnectionID →
      conn.srcConnectionID = pkt.destConnectionID →
      conn.initialVersion ∈ pkt.versions →
      PacketHandler.handleVersionNegotiationPacket supported conn pkt = .ok none) ∧
    (conn.version = conn.initialVersion →
      conn.initialDestConnectionID = pkt.srcConnectionID →
      conn.srcConnectionID = pkt.destConnectionID →
      conn.initialVersion ∉ pkt.versions →
      ((∀ v ∈ pkt.versions, v ∉ supported) →
        PacketHandler.handleVersionNegotiationPacket supported conn pkt
          = .error .VERSION_NEGOTIATION_ERROR) ∧
      ((∃ v ∈ pkt.versions, v ∈ supported) →
        ∃ m, PacketHandler.handleVersionNegotiationPacket supported conn pkt
          = .ok (some m)) ∧
      (∀ m, PacketHandler.handleVersionNegotiationPacket supported conn pkt
          = .ok (some m) →
        m ∈ pkt.versions ∧ m ∈ supported ∧
          ∀ w ∈ pkt.versions, w ∈ supported → w ≤ m)) := by
  refine ⟨?_, ?_, ?_, ?_⟩
  · intro hver
    simp [PacketHandler.handleVersionNegotiationPacket, hver]
  · intro hver hcid
    rw [PacketHandler.handleVersionNegotiationPacket, if_neg (by simpa using hver),
      if_pos hcid]
  · intro hver hcid1 hcid2 hmem
    have hcontains : PacketHandler.containsChosenVersion conn.initialVersion pkt.versions
        = true := (PacketHandler.containsChosenVersion_iff _ _).mpr hmem
    rw [PacketHandler.handleVersionNegotiationPacket, if_neg (by simpa using hver),
      if_neg (by simp [hcid1, hcid2]), if_pos hcontains]
  · intro hver hcid1 hcid2 hnmem
    have hcontains : ¬ PacketHandler.containsChosenVersion conn.initialVersion pkt.versions
        = true := fun hc => hnmem ((PacketHandler.containsChosenVersion_iff _ _).mp hc)
    have hhandle : PacketHandler.handleVersionNegotiationPacket supported conn pkt
        = match PacketHandler.pickNegotiatedVersion supported pkt.versions with
          | none => .error .VERSION_NEGOTIATION_ERROR
          | some v => .ok (some v) := by
      rw [PacketHandler.handleVersionNegotiationPacket, if_neg (by simpa using hver),
        if_neg (by simp [hcid1, hcid2]), if_neg hcontains]
    refine ⟨?_, ?_, ?_⟩
    · intro hnone
      cases hpick : PacketHandler.pickNegotiatedVersion supported pkt.versions with
      | none => rw [hhandle, hpick]
      | some m =>
        obtain ⟨hm, -, -⟩ := PacketHandler.pickFold_some supported pkt.versions none m hpick
        rcases hm with heq | ⟨hmem, hcm⟩
        · exact Option.noConfusion heq
        · exact absurd ((PacketHandler.contains_iff_mem_str _ _).mp hcm)
            (hnone m hmem)
    · rintro ⟨v, hv, hvs⟩
      cases hpick : PacketHandler.pickNegotiatedVersion supported pkt.versions with
      | none =>
        obtain ⟨-, hall⟩ := PacketHandler.pickFold_none supported pkt.versions none hpick
        have := hall v hv
        rw [(by simpa using (PacketHandler.contains_iff_mem_str supported v).mpr hvs : supported.contains v = true)] at this
        exact Bool.noConfusion this
      | some m =>
        exact ⟨m, by rw [hhandle, hpick]⟩
    · intro m hm
      have hpick : PacketHandler.pickNegotiatedVersion supported pkt.versions = some m := by
        cases hpick : PacketHandler.pickNegotiatedVersion supported pkt.versions with
        | none => rw [hhandle, hpick] at hm; exact Except.noConfusion hm
        | some v =>
          rw [hhandle, hpick] at hm
          have hvm : v = m := by simpa using hm
          exact congrArg some hvm
      obtain ⟨h1, h2, -⟩ := PacketHandler.pickFold_some supported pkt.versions none m hpick
      rcases h1 with heq | ⟨hmem, hcm⟩
      · exact Option.noConfusion heq
      · exact ⟨hmem, (PacketHandler.contains_iff_mem_str _ _).mp hcm,
          fun w hw hws => h2 w hw ((PacketHandler.contains_iff_mem_str _ _).mpr hws)⟩

/-- Witness for C2: a client at initial version `"deadbeef"` with IDs (1, 2)
receives a VersionNegotiation echoing (1, 2) and offering
`["aabbccdd", "ff000012"]` against local support `["ff000012"]`: the packet
is not ignored and the connection is reset to `"ff000012"`, the only (hence
lexicographically highest) common version. -/
theorem handleVersionNegotiation_cases_witness :
    PacketHandler.handleVersionNegotiationPacket ["ff000012"]
        ⟨"deadbeef", "deadbeef", 1, 2⟩ ⟨1, 2, ["aabbccdd", "ff000012"]⟩
      = .ok (some "ff000012") ∧
    "ff000012" ∈ (["aabbccdd", "ff000012"] : List String) ∧
    "ff000012" ∈ (["ff000012"] : List String) ∧
    (∀ w ∈ (["aabbccdd", "ff000012"] : List String),
      w ∈ (["ff000012"] : List String) → w ≤ "ff000012") := by
  have heval : PacketHandler.handleVersionNegotiationPacket ["ff000012"]
      ⟨"deadbeef", "deadbeef", 1, 2⟩ ⟨1, 2, ["aabbccdd", "ff000012"]⟩
      = .ok (some "ff000012") := by decide
  have h := ((handleVersionNegotiation_cases ["ff000012"]
      ⟨"deadbeef", "deadbeef", 1, 2⟩ ⟨1, 2, ["aabbccdd", "ff000012"]⟩).2.2.2
      rfl rfl rfl (by decide)).2.2 "ff000012" heval
  exact ⟨heval, h.1, h.2.1, h.2.2⟩

namespace LongHeader

theorem toBytesBE_length (v len : Nat) : (toBytesBE v len).length = len := by
  simp [toBytesBE]

theorem bufWrite_step (P zs : List Nat) (m : Nat) (hm : zs.length ≤ m) :
    bufWrite (P ++ List.replicate m 0) P.length zs
      = (P ++ zs) ++ List.replicate (m - zs.length) 0 := by
  unfold bufWrite
  rw [List.take_left]
  have hlen : (P ++ List.replicate m (0 : Nat)).length - P.length = m := by simp
  rw [hlen, List.take_of_length_le hm, List.drop_append_eq_append_drop]
  rw [List.drop_eq_nil_of_le (by omega : P.length ≤ P.length + zs.length)]
  have h2 : P.length + zs.length - P.length = zs.length := by omega
  rw [h2, List.drop_replicate]
  simp [List.append_assoc]

theorem bufWrite_fit (P zs : List Nat) (off m : Nat) (hoff : off = P.length)
    (hm : zs.length ≤ m) :
    bufWrite (P ++ List.replicate m 0) off zs
      = (P ++ zs) ++ List.replicate (m - zs.length) 0 := by
  rw [hoff]
  exact bufWrite_step P zs m hm

set_option maxHeartbeats 1000000 in
theorem or_128_eq_add (t : Nat) (h : t < 128) : 128 ||| t = 128 + t := by
  interval_cases t <;> decide

end LongHeader

/-- Claim C8 counterexample: for the long header with type `0x7F`, the
Version Negotiation version 0, empty connection IDs, packet number 0 and
payload length 0, `toBuffer` yields a 7-byte buffer (`getSize` counts the
VLIE-encoded payload length even for a Version Negotiation version, which
`toBuffer` never writes), so the buffer is not the layout the claim
describes — it carries a trailing zero byte beyond it. -/
theorem longHeader_toBuffer_vs_described_layout :
    LongHeader.toBuffer ⟨0x7F, 0, [], [], 0, some 0⟩
      ≠ LongHeader.describedLayout ⟨0x7F, 0, [], [], 0, some 0⟩ := by
  decide

/-- Claim C8, amended: for every long header with a valid type (< 0x80),
`toBuffer` produces a buffer of length `getSize()` that starts with the byte
`0x80 | type`, the 4-byte big-endian version, the connection-ID length
nibble byte, the destination and source connection IDs, and — exactly when
the version is not the Version Negotiation flag — the VLIE-encoded payload
length (when present) followed by the 4-byte truncated packet number; when
the version IS the Version Negotiation flag and a payload length is present,
the buffer additionally ends with `getSize`'s VLIE allowance of zero bytes,
which `toBuffer` never writes. -/
theorem longHeader_toBuffer_layout (h : LongHeader.LongHeaderS)
    (htype : h.packetType < 128) :
    LongHeader.toBuffer h
      = LongHeader.describedLayout h
          ++ List.replicate
              (if LongHeader.isVersionNegotiationFlag h.version then
                match h.payloadLength with
                | some l => (LongHeader.vlieEncode l).length
                | none => 0
               else 0) 0 ∧
    (LongHeader.toBuffer h).length = LongHeader.getSize h := by
  have hor : (128 : Nat) ||| h.packetType = 128 + h.packetType :=
    LongHeader.or_128_eq_add h.packetType htype
  have hM : 6 + h.destConnectionID.length + h.srcConnectionID.length ≤ LongHeader.getSize h := by
    unfold LongHeader.getSize
    omega
  have s1 : LongHeader.bufWrite (List.replicate (LongHeader.getSize h) 0) (0) ([128 + h.packetType]) = [128 + h.packetType] ++ List.replicate (LongHeader.getSize h - 1) 0 := by
    have := LongHeader.bufWrite_fit [] ([128 + h.packetType]) 0 (LongHeader.getSize h) rfl
      (by first
      | (simp only [List.length_append, List.length_singleton, LongHeader.toBytesBE_length, LongHeader.packetNumberBytes, LongHeader.LONG_HEADER_PACKET_NUMBER_SIZE]; omega)
      | simp only [List.length_append, List.length_singleton, LongHeader.toBytesBE_length, LongHeader.packetNumberBytes, LongHeader.LONG_HEADER_PACKET_NUMBER_SIZE]
      | omega)
    simpa using this
  have s2 : LongHeader.bufWrite ([128 + h.packetType] ++ List.replicate (LongHeader.getSize h - 1) 0) (1) (LongHeader.toBytesBE h.version 4) = ([128 + h.packetType] ++ LongHeader.toBytesBE h.version 4) ++ List.replicate (LongHeader.getSize h - 5) 0 := by
    have := LongHeader.bufWrite_fit ([128 + h.packetType]) (LongHeader.toBytesBE h.version 4) 1 (LongHeader.getSize h - 1)
      (by first
      | (simp only [List.length_append, List.length_singleton, LongHeader.toBytesBE_length, LongHeader.packetNumberBytes, LongHeader.LONG_HEADER_PACKET_NUMBER_SIZE]; omega)
      | simp only [List.length_append, List.length_singleton, LongHeader.toBytesBE_length, LongHeader.packetNumberBytes, LongHeader.LONG_HEADER_PACKET_NUMBER_SIZE]
      | omega) (by first
      | (simp only [List.length_append, List.length_singleton, LongHeader.toBytesBE_length, LongHeader.packetNumberBytes, LongHeader.LONG_HEADER_PACKET_NUMBER_SIZE]; omega)
      | simp only [List.length_append, List.length_singleton, LongHeader.toBytesBE_length, LongHeader.packetNumberBytes, LongHeader.LONG_HEADER_PACKET_NUMBER_SIZE]
      | omega)
    rw [this]
    have hc : LongHeader.getSize h - 1 - (LongHeader.toBytesBE h.version 4).length = LongHeader.getSize h - 5 := by
      first
      | (simp only [List.length_append, List.length_singleton, LongHeader.toBytesBE_length, LongHeader.packetNumberBytes, LongHeader.LONG_HEADER_PACKET_NUMBER_SIZE]; omega)
      | simp only [List.length_append, List.length_singleton, LongHeader.toBytesBE_length, LongHeader.packetNumberBytes, LongHeader.LONG_HEADER_PACKET_NUMBER_SIZE]
      | omega
    rw [hc]
  have s3 : LongHeader.bufWrite (([128 + h.packetType] ++ LongHeader.toBytesBE h.version 4) ++ List.replicate (LongHeader.getSize h - 5) 0) (5) ([LongHeader.cidLengthByte h]) = (([128 + h.packetType] ++ LongHeader.toBytesBE h.version 4) ++ [LongHeader.cidLengthByte h]) ++ List.replicate (LongHeader.getSize h - 6) 0 := by
    have := LongHeader.bufWrite_fit (([128 + h.packetType] ++ LongHeader.toBytesBE h.version 4)) ([LongHeader.cidLengthByte h]) 5 (LongHeader.getSize h - 5)
      (by first
      | (simp only [List.length_append, List.length_singleton, LongHeader.toBytesBE_length, LongHeader.packetNumberBytes, LongHeader.LONG_HEADER_PACKET_NUMBER_SIZE]; omega)
      | simp only [List.length_append, List.length_singleton, LongHeader.toBytesBE_length, LongHeader.packetNumberBytes, LongHeader.LONG_HEADER_PACKET_NUMBER_SIZE]
      | omega) (by first
      | (simp only [List.length_append, List.length_singleton, LongHeader.toBytesBE_length, LongHeader.packetNumberBytes, LongHeader.LONG_HEADER_PACKET_NUMBER_SIZE]; omega)
      | simp only [List.length_append, List.length_singleton, LongHeader.toBytesBE_length, LongHeader.packetNumberBytes, LongHeader.LONG_HEADER_PACKET_NUMBER_SIZE]
      | omega)
    rw [this]
    have hc : LongHeader.getSize h - 5 - ([LongHeader.cidLengthByte h] : List Nat).length = LongHeader.getSize h - 6 := by
      first
      | (simp only [List.length_append, List.length_singleton, LongHeader.toBytesBE_length, LongHeader.packetNumberBytes, LongHeader.LONG_HEADER_PACKET_NUMBER_SIZE]; omega)
      | simp only [List.length_append, List.length_singleton, LongHeader.toBytesBE_length, LongHeader.packetNumberBytes, LongHeader.LONG_HEADER_PACKET_NUMBER_SIZE]
      | omega
    rw [hc]
  have s4 : LongHeader.bufWrite ((([128 + h.packetType] ++ LongHeader.toBytesBE h.version 4) ++ [LongHeader.cidLengthByte h]) ++ List.replicate (LongHeader.getSize h - 6) 0) (6) (h.destConnectionID) = ((([128 + h.packetType] ++ LongHeader.toBytesBE h.version 4) ++ [LongHeader.cidLengthByte h]) ++ h.destConnectionID) ++ List.replicate (LongHeader.getSize h - 6 - h.destConnectionID.length) 0 := by
    have := LongHeader.bufWrite_fit ((([128 + h.packetType] ++ LongHeader.toBytesBE h.version 4) ++ [LongHeader.cidLengthByte h])) (h.destConnectionID) 6 (LongHeader.getSize h - 6)
      (by first
      | (simp only [List.length_append, List.length_singleton, LongHeader.toBytesBE_length, LongHeader.packetNumberBytes, LongHeader.LONG_HEADER_PACKET_NUMBER_SIZE]; omega)
      | simp only [List.length_append, List.length_singleton, LongHeader.toBytesBE_length, LongHeader.packetNumberBytes, LongHeader.LONG_HEADER_PACKET_NUMBER_SIZE]
      | omega) (by first
      | (simp only [List.length_append, List.length_singleton, LongHeader.toBytesBE_length, LongHeader.packetNumberBytes, LongHeader.LONG_HEADER_PACKET_NUMBER_SIZE]; omega)
      | simp only [List.length_append, List.length_singleton, LongHeader.toBytesBE_length, LongHeader.packetNumberBytes, LongHeader.LONG_HEADER_PACKET_NUMBER_SIZE]
      | omega)
    rw [this]
  have s5 : LongHeader.bufWrite (((([128 + h.packetType] ++ LongHeader.toBytesBE h.version 4) ++ [LongHeader.cidLengthByte h]) ++ h.destConnectionID) ++ List.replicate (LongHeader.getSize h - 6 - h.destConnectionID.length) 0) (6 + h.destConnectionID.length) (h.srcConnectionID) = (((([128 + h.packetType] ++ LongHeader.toBytesBE h.version 4) ++ [LongHeader.cidLengthByte h]) ++ h.destConnectionID) ++ h.srcConnectionID) ++ List.replicate (LongHeader.getSize h - 6 - h.destConnectionID.length - h.srcConnectionID.length) 0 := by
    have := LongHeader.bufWrite_fit (((([128 + h.packetType] ++ LongHeader.toBytesBE h.version 4) ++ [LongHeader.cidLengthByte h]) ++ h.destConnectionID)) (h.srcConnectionID) (6 + h.destConnectionID.length) (LongHeader.getSize h - 6 - h.destConnectionID.length)
      (by first
      | (simp only [List.length_append, List.length_singleton, LongHeader.toBytesBE_length, LongHeader.packetNumberBytes, LongHeader.LONG_HEADER_PACKET_NUMBER_SIZE]; omega)
      | simp only [List.length_append, List.length_singleton, LongHeader.toBytesBE_length, LongHeader.packetNumberBytes, LongHeader.LONG_HEADER_PACKET_NUMBER_SIZE]
      | omega) (by first
      | (simp only [List.length_append, List.length_singleton, LongHeader.toBytesBE_length, LongHeader.packetNumberBytes, LongHeader.LONG_HEADER_PACKET_NUMBER_SIZE]; omega)
      | simp only [List.length_append, List.length_singleton, LongHeader.toBytesBE_length, LongHeader.packetNumberBytes, LongHeader.LONG_HEADER_PACKET_NUMBER_SIZE]
      | omega)
    rw [this]

  cases hVN : LongHeader.isVersionNegotiationFlag h.version with
  | true =>
    cases hpl : h.payloadLength with
    | none =>
      have hsz : LongHeader.getSize h = 6 + h.destConnectionID.length + h.srcConnectionID.length := by
        simp [LongHeader.getSize, hVN, hpl]
      have hc5 : LongHeader.getSize h - 6 - h.destConnectionID.length - h.srcConnectionID.length = 0 := by omega
      have hmain : LongHeader.toBuffer h
          = LongHeader.describedLayout h ++ List.replicate 0 0 := by
        simp only [LongHeader.toBuffer, hVN, hpl, s1, s2, s3, s4, s5, hc5]
        simp [LongHeader.describedLayout, hVN, hor, List.append_assoc]
      refine ⟨by simpa [hVN, hpl] using hmain, ?_⟩
      rw [hmain]
      simp [LongHeader.describedLayout, hVN, hpl, LongHeader.toBytesBE_length,
        hsz] <;> omega

    | some l =>
      have hsz : LongHeader.getSize h = 6 + h.destConnectionID.length + h.srcConnectionID.length + (LongHeader.vlieEncode l).length := by
        simp [LongHeader.getSize, hVN, hpl]
      have hc5 : LongHeader.getSize h - 6 - h.destConnectionID.length - h.srcConnectionID.length = (LongHeader.vlieEncode l).length := by omega
      have hmain : LongHeader.toBuffer h
          = LongHeader.describedLayout h ++ List.replicate (LongHeader.vlieEncode l).length 0 := by
        simp only [LongHeader.toBuffer, hVN, hpl, s1, s2, s3, s4, s5, hc5]
        simp [LongHeader.describedLayout, hVN, hor, List.append_assoc]
      refine ⟨by simpa [hVN, hpl] using hmain, ?_⟩
      rw [hmain]
      simp [LongHeader.describedLayout, hVN, hpl, LongHeader.toBytesBE_length,
        hsz] <;> omega

  | false =>
    cases hpl : h.payloadLength with
    | none =>
      have hsz : LongHeader.getSize h = 6 + h.destConnectionID.length + h.srcConnectionID.length + 4 := by
        simp [LongHeader.getSize, hVN, hpl, LongHeader.LONG_HEADER_PACKET_NUMBER_SIZE]
      have s6 : LongHeader.bufWrite ((((([128 + h.packetType] ++ LongHeader.toBytesBE h.version 4) ++ [LongHeader.cidLengthByte h]) ++ h.destConnectionID) ++ h.srcConnectionID) ++ List.replicate (LongHeader.getSize h - 6 - h.destConnectionID.length - h.srcConnectionID.length) 0) (6 + h.destConnectionID.length + h.srcConnectionID.length) (LongHeader.packetNumberBytes h)
          = ((((([128 + h.packetType] ++ LongHeader.toBytesBE h.version 4) ++ [LongHeader.cidLengthByte h]) ++ h.destConnectionID) ++ h.srcConnectionID) ++ LongHeader.packetNumberBytes h) ++ List.replicate 0 0 := by
        have := LongHeader.bufWrite_fit ((((([128 + h.packetType] ++ LongHeader.toBytesBE h.version 4) ++ [LongHeader.cidLengthByte h]) ++ h.destConnectionID) ++ h.srcConnectionID)) (LongHeader.packetNumberBytes h) (6 + h.destConnectionID.length + h.srcConnectionID.length) (LongHeader.getSize h - 6 - h.destConnectionID.length - h.srcConnectionID.length)
          (by first
      | (simp only [List.length_append, List.length_singleton, LongHeader.toBytesBE_length, LongHeader.packetNumberBytes, LongHeader.LONG_HEADER_PACKET_NUMBER_SIZE]; omega)
      | simp only [List.length_append, List.length_singleton, LongHeader.toBytesBE_length, LongHeader.packetNumberBytes, LongHeader.LONG_HEADER_PACKET_NUMBER_SIZE]
      | omega) (by first
      | (simp only [List.length_append, List.length_singleton, LongHeader.toBytesBE_length, LongHeader.packetNumberBytes, LongHeader.LONG_HEADER_PACKET_NUMBER_SIZE]; omega)
      | simp only [List.length_append, List.length_singleton, LongHeader.toBytesBE_length, LongHeader.packetNumberBytes, LongHeader.LONG_HEADER_PACKET_NUMBER_SIZE]
      | omega)
        rw [this]
        have hc : LongHeader.getSize h - 6 - h.destConnectionID.length - h.srcConnectionID.length - (LongHeader.packetNumberBytes h).length = 0 := by
          simp only [List.length_append, List.length_singleton, LongHeader.toBytesBE_length, LongHeader.packetNumberBytes, LongHeader.LONG_HEADER_PACKET_NUMBER_SIZE]
          omega
        rw [hc]
      have hmain : LongHeader.toBuffer h
          = LongHeader.describedLayout h ++ List.replicate 0 0 := by
        simp only [LongHeader.toBuffer, hVN, hpl, s1, s2, s3, s4, s5, s6]
        simp [LongHeader.describedLayout, hVN, hpl, hor, List.append_assoc]
      refine ⟨by simpa [hVN, hpl] using hmain, ?_⟩
      rw [hmain]
      simp [LongHeader.describedLayout, hVN, hpl, LongHeader.toBytesBE_length,
        LongHeader.packetNumberBytes, LongHeader.LONG_HEADER_PACKET_NUMBER_SIZE,
        hsz] <;> omega

    | some l =>
      have hsz : LongHeader.getSize h = 6 + h.destConnectionID.length + h.srcConnectionID.length + 4 + (LongHeader.vlieEncode l).length := by
        simp [LongHeader.getSize, hVN, hpl, LongHeader.LONG_HEADER_PACKET_NUMBER_SIZE]
      have s6 : LongHeader.bufWrite ((((([128 + h.packetType] ++ LongHeader.toBytesBE h.version 4) ++ [LongHeader.cidLengthByte h]) ++ h.destConnectionID) ++ h.srcConnectionID) ++ List.replicate (LongHeader.getSize h - 6 - h.destConnectionID.length - h.srcConnectionID.length) 0) (6 + h.destConnectionID.length + h.srcConnectionID.length) (LongHeader.vlieEncode l)
          = ((((([128 + h.packetType] ++ LongHeader.toBytesBE h.version 4) ++ [LongHeader.cidLengthByte h]) ++ h.destConnectionID) ++ h.srcConnectionID) ++ LongHeader.vlieEncode l) ++ List.replicate (4) 0 := by
        have := LongHeader.bufWrite_fit ((((([128 + h.packetType] ++ LongHeader.toBytesBE h.version 4) ++ [LongHeader.cidLengthByte h]) ++ h.destConnectionID) ++ h.srcConnectionID)) (LongHeader.vlieEncode l) (6 + h.destConnectionID.length + h.srcConnectionID.length) (LongHeader.getSize h - 6 - h.destConnectionID.length - h.srcConnectionID.length)
          (by first
      | (simp only [List.length_append, List.length_singleton, LongHeader.toBytesBE_length, LongHeader.packetNumberBytes, LongHeader.LONG_HEADER_PACKET_NUMBER_SIZE]; omega)
      | simp only [List.length_append, List.length_singleton, LongHeader.toBytesBE_length, LongHeader.packetNumberBytes, LongHeader.LONG_HEADER_PACKET_NUMBER_SIZE]
      | omega) (by omega)
        rw [this]
        have hc : LongHeader.getSize h - 6 - h.destConnectionID.length - h.srcConnectionID.length - (LongHeader.vlieEncode l).length = 4 := by omega
        rw [hc]
      have s7 : LongHeader.bufWrite (((((([128 + h.packetType] ++ LongHeader.toBytesBE h.version 4) ++ [LongHeader.cidLengthByte h]) ++ h.destConnectionID) ++ h.srcConnectionID) ++ LongHeader.vlieEncode l) ++ List.replicate (4) 0) (6 + h.destConnectionID.length + h.srcConnectionID.length + (LongHeader.vlieEncode l).length) (LongHeader.packetNumberBytes h)
          = (((((([128 + h.packetType] ++ LongHeader.toBytesBE h.version 4) ++ [LongHeader.cidLengthByte h]) ++ h.destConnectionID) ++ h.srcConnectionID) ++ LongHeader.vlieEncode l) ++ LongHeader.packetNumberBytes h) ++ List.replicate 0 0 := by
        have := LongHeader.bufWrite_fit (((((([128 + h.packetType] ++ LongHeader.toBytesBE h.version 4) ++ [LongHeader.cidLengthByte h]) ++ h.destConnectionID) ++ h.srcConnectionID) ++ LongHeader.vlieEncode l)) (LongHeader.packetNumberBytes h)
          (6 + h.destConnectionID.length + h.srcConnectionID.length + (LongHeader.vlieEncode l).length) (4)
          (by first
      | (simp only [List.length_append, List.length_singleton, LongHeader.toBytesBE_length, LongHeader.packetNumberBytes, LongHeader.LONG_HEADER_PACKET_NUMBER_SIZE]; omega)
      | simp only [List.length_append, List.length_singleton, LongHeader.toBytesBE_length, LongHeader.packetNumberBytes, LongHeader.LONG_HEADER_PACKET_NUMBER_SIZE]
      | omega) (by first
      | (simp only [List.length_append, List.length_singleton, LongHeader.toBytesBE_length, LongHeader.packetNumberBytes, LongHeader.LONG_HEADER_PACKET_NUMBER_SIZE]; omega)
      | simp only [List.length_append, List.length_singleton, LongHeader.toBytesBE_length, LongHeader.packetNumberBytes, LongHeader.LONG_HEADER_PACKET_NUMBER_SIZE]
      | omega)
        rw [this]
        have hc : 4 - (LongHeader.packetNumberBytes h).length = 0 := by
          simp only [List.length_append, List.length_singleton, LongHeader.toBytesBE_length, LongHeader.packetNumberBytes, LongHeader.LONG_HEADER_PACKET_NUMBER_SIZE]
        rw [hc]
      have hmain : LongHeader.toBuffer h
          = LongHeader.describedLayout h ++ List.replicate 0 0 := by
        simp only [LongHeader.toBuffer, hVN, hpl, s1, s2, s3, s4, s5, s6, s7]
        simp [LongHeader.describedLayout, hVN, hpl, hor, List.append_assoc]
      refine ⟨by simpa [hVN, hpl] using hmain, ?_⟩
      rw [hmain]
      simp [LongHeader.describedLayout, hVN, hpl, LongHeader.toBytesBE_length,
        LongHeader.packetNumberBytes, LongHeader.LONG_HEADER_PACKET_NUMBER_SIZE,
        hsz] <;> omega


/-- Witness for C8 (amended): a Handshake-type header (`0x7D`, version 1)
with a 4-byte destination CID, empty source CID, payload length 100 and
packet number `0x1122334455667788` serializes to exactly the described
layout with no padding, and its buffer length equals `getSize()`. -/
theorem longHeader_toBuffer_layout_witness :
    LongHeader.toBuffer ⟨125, 1, [10, 11, 12, 13], [], 1234605616436508552, some 100⟩
      = LongHeader.describedLayout
          ⟨125, 1, [10, 11, 12, 13], [], 1234605616436508552, some 100⟩
        ++ List.replicate 0 0 ∧
    (LongHeader.toBuffer
        ⟨125, 1, [10, 11, 12, 13], [], 1234605616436508552, some 100⟩).length
      = LongHeader.getSize
          ⟨125, 1, [10, 11, 12, 13], [], 1234605616436508552, some 100⟩ := by
  have h := longHeader_toBuffer_layout
    ⟨125, 1, [10, 11, 12, 13], [], 1234605616436508552, some 100⟩ (by decide)
  exact ⟨by simpa using h.1, h.2⟩
